import Mathlib

/-!
Verification development for the `sql-batch-generator-id-based` repository.

The repository contains two sqlparser-based implementations of the same
batching core: `src/batch/mod.rs` (embedded below in namespace `Batch`) and
the layered `src/domain/id_batch.rs` + `src/infrastructure/sql_batch_template.rs`
+ `src/application/use_cases/generate_batched_sql.rs` pipeline (namespace
`Infra`).  Both are embedded over a shared model of the subset of the
external `sqlparser` AST that the code touches.
-/

deriving instance DecidableEq for Except

/-- Model of `sqlparser::ast::Ident`.  The source only ever reads and clones
the `value` field (`Ident::new` builds an ident with no quote style), so the
quote style is not modelled. -/
structure Ident where
  value : String
deriving DecidableEq

/-- Model of `Ident::new`. -/
def Ident.new (s : String) : Ident := ⟨s⟩

/-- Model of `sqlparser::ast::ObjectNamePart`; its only variant is
`Identifier(Ident)`. -/
inductive ObjectNamePart where
  | Identifier (i : Ident)
deriving DecidableEq

/-- Model of `ObjectNamePart::as_ident`. -/
def ObjectNamePart.as_ident : ObjectNamePart → Option Ident
  | .Identifier i => some i

/-- Model of `sqlparser::ast::ObjectName` (a dotted multi-part object name):
the wrapped vector of parts. -/
abbrev ObjectName := List ObjectNamePart

/-- Model of `sqlparser::ast::BinaryOperator`, restricted to the operators the
repository builds or that appear in the statements it manipulates. -/
inductive BinaryOperator where
  | And
  | Eq
deriving DecidableEq

/-- Model of `sqlparser::ast::Value`.  The repository builds
`Value::Number(i.to_string(), false)` from an `i128`; the number is kept as
the integer it prints. -/
inductive Value where
  | Number (i : Int)
  | SingleQuotedString (s : String)
deriving DecidableEq

/-- Model of the subset of `sqlparser::ast::Expr` the repository constructs
or inspects. -/
inductive Expr where
  | Identifier (i : Ident)
  | CompoundIdentifier (parts : List Ident)
  | Value (v : Value)
  | Between (e : Expr) (negated : Bool) (low : Expr) (high : Expr)
  | BinaryOp (l : Expr) (op : BinaryOperator) (r : Expr)
  | Nested (e : Expr)
  | Function (name : String) (arg : Expr)
deriving DecidableEq

/-- Model of `sqlparser::ast::TableAlias` (only the `name` field is read). -/
structure TableAlias where
  name : Ident
deriving DecidableEq

/-- Model of `sqlparser::ast::TableFactor`; the code only distinguishes the
`Table { name, alias, .. }` variant from everything else. -/
inductive TableFactor where
  | Table (name : ObjectName) (tableAlias : Option TableAlias)
  | OtherFactor
deriving DecidableEq

/-- Model of one join item: the joined relation and its `ON` condition. -/
structure Join where
  relation : TableFactor
  on_ : Expr
deriving DecidableEq

/-- Model of `sqlparser::ast::TableWithJoins`. -/
structure TableWithJoins where
  relation : TableFactor
  joins : List Join
deriving DecidableEq

/-- Model of an `UPDATE` assignment `target = value`. -/
structure Assignment where
  target : List Ident
  value : Expr
deriving DecidableEq

/-- Model of `sqlparser::ast::FromTable` (the `FROM` part of a `DELETE`). -/
inductive FromTable where
  | WithFromKeyword (items : List TableWithJoins)
  | WithoutKeyword (items : List TableWithJoins)
deriving DecidableEq

/-- Model of `sqlparser::ast::OrderByExpr`: the expression and the optional
`ASC`/`DESC` flag. -/
structure OrderByExpr where
  expr : Expr
  asc : Option Bool
deriving DecidableEq

/-- Model of `sqlparser::ast::SelectItem`, restricted to what the primary-key
probe inspects. -/
inductive SelectItem where
  | UnnamedExpr (e : Expr)
  | Wildcard
deriving DecidableEq

/-- Model of the fields of `sqlparser::ast::Select` the repository touches. -/
structure Select where
  projection : List SelectItem
  from_items : List TableWithJoins
  selection : Option Expr
deriving DecidableEq

/-- Model of `sqlparser::ast::SetExpr`. -/
inductive SetExpr where
  | Select (s : Select)
  | OtherSetExpr
deriving DecidableEq

/-- Model of `sqlparser::ast::Query` (only the body is read). -/
structure Query where
  body : SetExpr
deriving DecidableEq

/-- Model of the fields of `sqlparser::ast::Delete` the repository touches
(`tables`, `from`, `selection`, `order_by`, `limit`). -/
structure Delete where
  tables : List ObjectName
  from_ : FromTable
  selection : Option Expr
  order_by : List OrderByExpr
  limit : Option Expr
deriving DecidableEq

/-- Model of `sqlparser::ast::Statement`, restricted to the variants the
repository matches on; `Insert` stands for any statement kind outside
`UPDATE`/`DELETE`/`Query`. -/
inductive Statement where
  | Update (table : TableWithJoins) (assignments : List Assignment)
      (selection : Option Expr) (limit : Option Expr)
  | Delete (d : Delete)
  | Query (q : Query)
  | Insert (table : ObjectName)
deriving DecidableEq

/-!  ## Rust string primitives

The Rust code calls `str::trim`, `str::trim_end`, `str::is_empty`,
`str::contains`, `str::split` and `str::ends_with` on its strings.  They are
modelled below over the string's character list. -/

/-- Model of `str::is_empty`. -/
def strIsEmpty (s : String) : Bool := s.data.isEmpty

/-- Model of `str::trim`: drop leading and trailing whitespace. -/
def strTrim (s : String) : String :=
  ⟨((s.data.dropWhile Char.isWhitespace).reverse.dropWhile
      Char.isWhitespace).reverse⟩

/-- Model of `str::trim_end`: drop trailing whitespace. -/
def strTrimEnd (s : String) : String :=
  ⟨(s.data.reverse.dropWhile Char.isWhitespace).reverse⟩

/-- Model of `str::contains(char)`. -/
def strContainsChar (s : String) (c : Char) : Bool := s.data.contains c

/-- Splitting a character list at every occurrence of `c` (the splitter
underlying `str::split(char)`): `"a.b"` gives `["a","b"]`, `"."` gives
`["",""]`, `""` gives `[""]`. -/
def splitOnCharAux (c : Char) : List Char → List (List Char)
  | [] => [[]]
  | x :: xs =>
    let rest := splitOnCharAux c xs
    if x = c then [] :: rest
    else
      match rest with
      | h :: t => (x :: h) :: t
      | [] => [[x]]

/-- Model of `str::split(char)`. -/
def strSplitOnChar (s : String) (c : Char) : List String :=
  (splitOnCharAux c s.data).map (fun chars => ⟨chars⟩)

/-- Model of `str::ends_with(char)`. -/
def strEndsWithChar (s : String) (c : Char) : Bool :=
  match s.data.getLast? with
  | some x => x = c
  | none => false

/-!  ## The range slicer

`IdBatchSlicer::iter_ranges` (src/domain/id_batch.rs), `IdRange::split_by`
(src/batch/mod.rs) and `IdSlicer::slice_id` (src/main.rs) all run the same
algorithm: starting at `start`, while the cursor is `≤ stop` emit
`(cursor, min (cursor + n - 1) stop)` and advance the cursor by `n`
(`(start..=end).step_by(n).map(...)`).  `sliceRanges` is that shared
algorithm; the guard `0 < n` mirrors the fact that every caller has already
rejected a zero batch size (`step_by` requires a positive step). -/
def sliceRangesGo : Nat → Int → Int → Nat → List (Int × Int)
  | 0, _, _, _ => []
  | fuel + 1, start, stop, n =>
    if 0 < n ∧ start ≤ stop then
      (start, min (start + n - 1) stop) :: sliceRangesGo fuel (start + n) stop n
    else
      []

/-- The slicing loop; the fuel `(stop + 1 - start).toNat` bounds the number
of iterations (each iteration advances the cursor by `n ≥ 1`). -/
def sliceRanges (start stop : Int) (n : Nat) : List (Int × Int) :=
  sliceRangesGo (stop + 1 - start).toNat start stop n

/-!  ## The external printing capability

Modelled from the spec: §6 declares the SQL parsing/printing capability an
external collaborator with `render(AST) -> text` total over parsed ASTs.
The functions below print the modelled AST in the textual form the external
library uses, as witnessed by the repository's own unit tests (e.g.
`DELETE FROM users WHERE id BETWEEN 1 AND 10`,
`UPDATE users u SET active = 0 WHERE u.id BETWEEN 1 AND 50 AND (status = 'old')`).
-/

def renderIdent (i : Ident) : String := i.value

def renderObjectName (name : ObjectName) : String :=
  String.intercalate "."
    (name.map (fun part => match part with | .Identifier i => i.value))

def renderValue : Value → String
  | .Number i => toString i
  | .SingleQuotedString s => "'" ++ s ++ "'"

def renderBinaryOperator : BinaryOperator → String
  | .And => "AND"
  | .Eq => "="

def renderExpr : Expr → String
  | .Identifier i => i.value
  | .CompoundIdentifier parts =>
      String.intercalate "." (parts.map (fun i => i.value))
  | .Value v => renderValue v
  | .Between e negated low high =>
      renderExpr e ++ (if negated then " NOT BETWEEN " else " BETWEEN ") ++
        renderExpr low ++ " AND " ++ renderExpr high
  | .BinaryOp l op r =>
      renderExpr l ++ " " ++ renderBinaryOperator op ++ " " ++ renderExpr r
  | .Nested e => "(" ++ renderExpr e ++ ")"
  | .Function name arg => name ++ "(" ++ renderExpr arg ++ ")"

def renderTableFactor : TableFactor → String
  | .Table name a =>
      renderObjectName name ++
        (match a with | some al => " " ++ al.name.value | none => "")
  | .OtherFactor => "<other-relation>"

def renderJoin (j : Join) : String :=
  " JOIN " ++ renderTableFactor j.relation ++ " ON " ++ renderExpr j.on_

def renderTableWithJoins (t : TableWithJoins) : String :=
  renderTableFactor t.relation ++ String.join (t.joins.map renderJoin)

def renderAssignment (a : Assignment) : String :=
  String.intercalate "." (a.target.map (fun i => i.value)) ++ " = " ++
    renderExpr a.value

def renderOrderByExpr (o : OrderByExpr) : String :=
  renderExpr o.expr ++
    (match o.asc with | none => "" | some true => " ASC" | some false => " DESC")

def renderWhere : Option Expr → String
  | none => ""
  | some e => " WHERE " ++ renderExpr e

def renderSelectItem : SelectItem → String
  | .UnnamedExpr e => renderExpr e
  | .Wildcard => "*"

def renderStatement : Statement → String
  | .Update table assignments selection limit =>
      "UPDATE " ++ renderTableWithJoins table ++ " SET " ++
        String.intercalate ", " (assignments.map renderAssignment) ++
        renderWhere selection ++
        (match limit with | none => "" | some e => " LIMIT " ++ renderExpr e)
  | .Delete d =>
      "DELETE " ++
        (if d.tables.isEmpty then ""
         else String.intercalate ", " (d.tables.map renderObjectName) ++ " ") ++
        (match d.from_ with
         | .WithFromKeyword items =>
             "FROM " ++ String.intercalate ", " (items.map renderTableWithJoins)
         | .WithoutKeyword items =>
             String.intercalate ", " (items.map renderTableWithJoins)) ++
        renderWhere d.selection ++
        (if d.order_by.isEmpty then ""
         else " ORDER BY " ++
           String.intercalate ", " (d.order_by.map renderOrderByExpr)) ++
        (match d.limit with | none => "" | some e => " LIMIT " ++ renderExpr e)
  | .Query q =>
      match q.body with
      | .Select s =>
          "SELECT " ++ String.intercalate ", " (s.projection.map renderSelectItem) ++
            (if s.from_items.isEmpty then ""
             else " FROM " ++
               String.intercalate ", " (s.from_items.map renderTableWithJoins)) ++
            renderWhere s.selection
      | .OtherSetExpr => "<set-expression>"
  | .Insert table => "INSERT INTO " ++ renderObjectName table ++ " VALUES (1)"

/-!  ## The external parsing capability

Concrete ASTs for the statements appearing in this development, and the
parse oracle fixed on those inputs. -/

/-- A plain (un-aliased) table reference. -/
def plainTable (name : String) : TableWithJoins :=
  ⟨.Table [.Identifier ⟨name⟩] none, []⟩

/-- AST of `DELETE FROM users`. -/
def delUsers : Statement :=
  .Delete ⟨[], .WithFromKeyword [plainTable "users"], none, [], none⟩

/-- AST of `DELETE FROM users ORDER BY id DESC LIMIT 5`. -/
def delUsersOrderLimit : Statement :=
  .Delete ⟨[], .WithFromKeyword [plainTable "users"], none,
    [⟨.Identifier ⟨"id"⟩, some false⟩], some (.Value (.Number 5))⟩

/-- AST of `UPDATE users SET active = 0`. -/
def updUsersActive : Statement :=
  .Update (plainTable "users") [⟨[⟨"active"⟩], .Value (.Number 0)⟩] none none

/-- AST of the probe query `SELECT <e> FROM __pk_probe`. -/
def probeSelect (e : Expr) : Statement :=
  .Query ⟨.Select ⟨[.UnnamedExpr e], [plainTable "__pk_probe"], none⟩⟩

/-- AST of `SELECT x` (no `FROM`), the first statement of the smuggled
primary-key input `x; SELECT id`. -/
def selX : Statement :=
  .Query ⟨.Select ⟨[.UnnamedExpr (.Identifier ⟨"x"⟩)], [], none⟩⟩

/-- Modelled from the spec: the external parsing capability
`parse(text, dialect) -> AST | ParseError` (§6) is an external collaborator,
not code of this repository.  The oracle is fixed on the concrete inputs used
in this development, following the generic-dialect grammar (all concrete
claims use the `Generic` dialect); every other input is a parse error.
Notably `";"` consists only of a statement separator and parses to an empty
statement list, and `"SELECT x; SELECT id FROM __pk_probe"` parses to two
statements. -/
def parseSql (raw_sql : String) : Except String (List Statement) :=
  if raw_sql = ";" then .ok []
  else if raw_sql = "DELETE FROM users" then .ok [delUsers]
  else if raw_sql = "DELETE FROM users ORDER BY id DESC LIMIT 5" then
    .ok [delUsersOrderLimit]
  else if raw_sql = "INSERT INTO logs VALUES (1)" then
    .ok [.Insert [.Identifier ⟨"logs"⟩]]
  else if raw_sql = "UPDATE users SET active = 0; DELETE FROM users" then
    .ok [updUsersActive, delUsers]
  else if raw_sql = "SELECT id FROM __pk_probe" then
    .ok [probeSelect (.Identifier ⟨"id"⟩)]
  else if raw_sql = "SELECT t2.id FROM __pk_probe" then
    .ok [probeSelect (.CompoundIdentifier [⟨"t2"⟩, ⟨"id"⟩])]
  else if raw_sql = "SELECT x; SELECT id FROM __pk_probe" then
    .ok [selX, probeSelect (.Identifier ⟨"id"⟩)]
  else if raw_sql = "SELECT count(id) FROM __pk_probe" then
    .ok [probeSelect (.Function "count" (.Identifier ⟨"id"⟩))]
  else .error "sql parser error: unrecognized input"

/-!  ## `src/batch/mod.rs` -/

namespace Batch

/-- Model of `BatchError` (src/batch/mod.rs). -/
inductive BatchError where
  | EmptySql
  | EmptyPrimaryKey
  | InvalidPrimaryKeyRange (start stop : Int)
  | InvalidBatchSize (value : Nat)
  | ParseFailed (message : String)
  | InvalidPrimaryKeyExpression (message : String)
  | UnsupportedStatement
  | MultipleStatements
  | MissingDeleteTargetTable
deriving DecidableEq

/-- Model of `PrimaryKey` (src/batch/mod.rs). -/
inductive PrimaryKey where
  | Unqualified (i : Ident)
  | Qualified (parts : List Ident)
deriving DecidableEq

/-- The body of `PrimaryKey::parse` after the `Parser::parse_sql` call, over
the parse outcome.  `statements.pop()` takes the LAST parsed statement (with
no statement-count check), hence `getLast?`. -/
def PrimaryKey.parseWith :
    Except String (List Statement) → Except BatchError PrimaryKey
  | .error e => .error (.InvalidPrimaryKeyExpression e)
  | .ok statements =>
    match statements.getLast? with
    | none => .error (.InvalidPrimaryKeyExpression "empty parse result")
    | some statement =>
      match statement with
      | .Query q =>
        match q.body with
        | .Select sel =>
          match sel.projection with
          | [SelectItem.UnnamedExpr expression] =>
            match expression with
            | .Identifier ident => .ok (.Unqualified ident)
            | .CompoundIdentifier parts => .ok (.Qualified parts)
            | _ => .error
                (.InvalidPrimaryKeyExpression "only identifier path is supported")
          | _ => .error (.InvalidPrimaryKeyExpression "invalid projection")
        | _ => .error (.InvalidPrimaryKeyExpression "invalid query body")
      | _ => .error (.InvalidPrimaryKeyExpression "invalid primary key input")

/-- Model of `PrimaryKey::parse`: wrap the raw key into the probe query
`SELECT <raw> FROM __pk_probe` and inspect the parse result. -/
def PrimaryKey.parse (raw : String) : Except BatchError PrimaryKey :=
  PrimaryKey.parseWith (parseSql ("SELECT " ++ raw ++ " FROM __pk_probe"))

/-- Model of `PrimaryKey::new`. -/
def PrimaryKey.new (value : String) : Except BatchError PrimaryKey :=
  let trimmed := strTrim value
  if strIsEmpty trimmed then .error .EmptyPrimaryKey
  else PrimaryKey.parse trimmed

/-- Model of `PrimaryKey::to_expr`: an unqualified key is prefixed with the
resolved target table when one exists; a qualified key is kept unchanged. -/
def PrimaryKey.to_expr : PrimaryKey → Option String → Expr
  | .Unqualified ident, some table_name =>
      .CompoundIdentifier [Ident.new table_name, ident]
  | .Unqualified ident, none => .Identifier ident
  | .Qualified parts, _ => .CompoundIdentifier parts

/-- Model of `BatchSize` (a positive batch size). -/
structure BatchSize where
  val : Nat
deriving DecidableEq

/-- Model of `BatchSize::new`. -/
def BatchSize.new (value : Nat) : Except BatchError BatchSize :=
  if value = 0 then .error (.InvalidBatchSize value) else .ok ⟨value⟩

/-- Model of `IdRange` (`end` is a Lean keyword, hence `stop`). -/
structure IdRange where
  start : Int
  stop : Int
deriving DecidableEq

/-- Model of `IdRange::new`. -/
def IdRange.new (start stop : Int) : Except BatchError IdRange :=
  if start > stop then .error (.InvalidPrimaryKeyRange start stop)
  else .ok ⟨start, stop⟩

/-- Model of `IdRange::split_by`: the shared slicing algorithm; each emitted
pair is an `IdRange { start, end }`. -/
def IdRange.split_by (r : IdRange) (batch_size : BatchSize) : List (Int × Int) :=
  sliceRanges r.start r.stop batch_size.val

/-- Model of `BatchConfig`. -/
structure BatchConfig where
  primary_key : PrimaryKey
  full_range : IdRange
  batch_size : BatchSize
deriving DecidableEq

/-- Model of `BatchConfig::new`. -/
def BatchConfig.new (primary_key : String) (start_pk end_pk : Int)
    (batch_size : Nat) : Except BatchError BatchConfig := do
  let pk ← PrimaryKey.new primary_key
  let full_range ← IdRange.new start_pk end_pk
  let size ← BatchSize.new batch_size
  return ⟨pk, full_range, size⟩

/-- Model of `BatchConfig::batch_ranges`. -/
def BatchConfig.batch_ranges (c : BatchConfig) : List (Int × Int) :=
  c.full_range.split_by c.batch_size

/-- Model of `DmlStatement`. -/
structure DmlStatement where
  statement : Statement
  target_table : Option String
deriving DecidableEq

/-- Model of `DmlStatement::from_table_items`. -/
def DmlStatement.from_table_items : FromTable → List TableWithJoins
  | .WithFromKeyword items => items
  | .WithoutKeyword items => items

/-- Model of `DmlStatement::object_table_name`:
`name.0.iter().rev().find_map(|part| part.as_ident().map(...))` — the last
identifier part of the dotted object name. -/
def DmlStatement.object_table_name (name : ObjectName) : Option String :=
  name.reverse.findSome? (fun part => part.as_ident.map (fun ident => ident.value))

/-- Model of `DmlStatement::target_name_from_table_factor`: the alias when
present, otherwise the object name's last identifier. -/
def DmlStatement.target_name_from_table_factor : TableFactor → Option String
  | .Table name a =>
      match a with
      | some item => some item.name.value
      | none => object_table_name name
  | _ => none

/-- Model of `DmlStatement::resolve_target_table`. -/
def DmlStatement.resolve_target_table :
    Statement → Except BatchError (Option String)
  | .Update table _ _ _ => .ok (target_name_from_table_factor table.relation)
  | .Delete d =>
    match d.tables.head?.bind object_table_name with
    | some name => .ok (some name)
    | none =>
      match (from_table_items d.from_).head? with
      | none => .error .MissingDeleteTargetTable
      | some first_from => .ok (target_name_from_table_factor first_from.relation)
  | _ => .error .UnsupportedStatement

/-- `true` exactly for the statement kinds `DmlStatement::parse` accepts. -/
def supportedKind : Statement → Bool
  | .Update _ _ _ _ => true
  | .Delete _ => true
  | _ => false

/-- The body of `DmlStatement::parse` over the outcome of the
`Parser::parse_sql` call: blank check, parse-failure mapping, the
`statements.len() != 1` gate, and the statement-kind gate. -/
def DmlStatement.classify (raw_sql : String)
    (parsed : Except String (List Statement)) : Except BatchError DmlStatement :=
  if strIsEmpty (strTrim raw_sql) then .error .EmptySql
  else
    match parsed with
    | .error e => .error (.ParseFailed e)
    | .ok [statement] =>
      match statement with
      | .Update _ _ _ _ | .Delete _ =>
        match resolve_target_table statement with
        | .error e => .error e
        | .ok target_table => .ok ⟨statement, target_table⟩
      | _ => .error .UnsupportedStatement
    | .ok _ => .error .MultipleStatements

/-- Model of `DmlStatement::parse`. -/
def DmlStatement.parse (raw_sql : String) : Except BatchError DmlStatement :=
  DmlStatement.classify raw_sql (parseSql raw_sql)

/-- Model of `DmlStatement::merge_selection`: the new condition goes left,
the original condition is parenthesized on the right. -/
def DmlStatement.merge_selection : Option Expr → Expr → Expr
  | some existing, batch_condition =>
      .BinaryOp batch_condition .And (.Nested existing)
  | none, batch_condition => batch_condition

/-- Model of `DmlStatement::build_batch_condition`:
`pk BETWEEN range.start AND range.end`. -/
def DmlStatement.build_batch_condition (self : DmlStatement)
    (primary_key : PrimaryKey) (range : Int × Int) : Expr :=
  .Between (primary_key.to_expr self.target_table) false
    (.Value (.Number range.1)) (.Value (.Number range.2))

/-- Model of `DmlStatement::inject_batch_condition`: merge the `WHERE`
clause; `UPDATE` drops its `LIMIT`, `DELETE` drops `ORDER BY` and `LIMIT`. -/
def DmlStatement.inject_batch_condition (statement : Statement)
    (batch_condition : Expr) : Except BatchError Statement :=
  match statement with
  | .Update table assignments selection _ =>
      .ok (.Update table assignments
        (some (merge_selection selection batch_condition)) none)
  | .Delete d =>
      .ok (.Delete { d with
        selection := some (merge_selection d.selection batch_condition),
        order_by := [], limit := none })
  | _ => .error .UnsupportedStatement

/-- Model of `DmlStatement::to_batched_statement`. -/
def DmlStatement.to_batched_statement (self : DmlStatement)
    (primary_key : PrimaryKey) (range : Int × Int) : Except BatchError Statement :=
  DmlStatement.inject_batch_condition self.statement
    (self.build_batch_condition primary_key range)

end Batch

/-!  ## The layered pipeline: `src/domain/id_batch.rs`,
`src/infrastructure/sql_batch_template.rs`,
`src/application/use_cases/generate_batched_sql.rs` -/

namespace Infra

/-- Model of `IdBatchSlicer` (src/domain/id_batch.rs). -/
structure IdBatchSlicer where
  start_id : Int
  end_id : Int
  batch_size : Nat
deriving DecidableEq

/-- Model of `IdBatchSlicer::new`. -/
def IdBatchSlicer.new (start_id end_id : Int) (batch_size : Nat) :
    Except String IdBatchSlicer :=
  if start_id > end_id then
    .error "End ID must be greater than or equal to Start ID"
  else if batch_size = 0 then
    .error "Batch size must be greater than 0"
  else
    .ok ⟨start_id, end_id, batch_size⟩

/-- Model of `IdBatchSlicer::iter_ranges`: the shared slicing algorithm;
each emitted pair is an `IdBatchRange { start_id, end_id }`. -/
def IdBatchSlicer.iter_ranges (s : IdBatchSlicer) : List (Int × Int) :=
  sliceRanges s.start_id s.end_id s.batch_size

/-- Model of `SqlParserBatchTemplate` (src/infrastructure/sql_batch_template.rs). -/
structure SqlParserBatchTemplate where
  base_statement : Statement
  qualified_primary_key_expr : Expr
deriving DecidableEq

/-- Model of `parse_single_statement`: parse, then require exactly one
statement. -/
def parse_single_statement (raw_sql : String) : Except String Statement :=
  match parseSql raw_sql with
  | .error e => .error ("Unable to parse SQL with selected dialect: " ++ e)
  | .ok statements =>
    match statements with
    | [statement] => .ok statement
    | _ => .error ("Input SQL must contain exactly one statement, but got " ++
        toString statements.length)

/-- Model of `extract_alias_from_table_factor`: only an explicit alias is
returned (no table-name fallback). -/
def extract_alias_from_table_factor : TableFactor → Option String
  | .Table _ a => a.map (fun table_alias => table_alias.name.value)
  | _ => none

/-- Model of `extract_main_table_alias`. -/
def extract_main_table_alias : Statement → Option String
  | .Update table _ _ _ => extract_alias_from_table_factor table.relation
  | .Delete d =>
    (match d.from_ with
     | .WithFromKeyword table => table
     | .WithoutKeyword table => table).head?.bind
      (fun table_with_joins =>
        extract_alias_from_table_factor table_with_joins.relation)
  | .Query q =>
    match q.body with
    | .Select sel =>
        sel.from_items.head?.bind
          (fun table_with_joins =>
            extract_alias_from_table_factor table_with_joins.relation)
    | _ => none
  | _ => none

/-- Model of `build_primary_key_expr`: blank check; a key containing `.` is
split into its (trimmed, non-empty) dot-separated parts and kept as-is; an
unqualified key is prefixed with the main-table alias when one exists. -/
def build_primary_key_expr (primary_key : String) (table_alias : Option String) :
    Except String Expr :=
  let trimmed_primary_key := strTrim primary_key
  if strIsEmpty trimmed_primary_key then
    .error "Primary key must not be empty"
  else if strContainsChar trimmed_primary_key '.' then
    let identifier_parts :=
      (((strSplitOnChar trimmed_primary_key '.').map strTrim).filter
        (fun part => !strIsEmpty part)).map Ident.new
    if identifier_parts.length < 2 then
      .error "Qualified primary key must contain both table and column, for example: users.id"
    else
      .ok (.CompoundIdentifier identifier_parts)
  else
    match table_alias with
    | some alias_name =>
        .ok (.CompoundIdentifier [Ident.new alias_name,
          Ident.new trimmed_primary_key])
    | none => .ok (.Identifier (Ident.new trimmed_primary_key))

/-- Model of `SqlParserBatchTemplate::parse`. -/
def SqlParserBatchTemplate.parse (raw_sql primary_key : String) :
    Except String SqlParserBatchTemplate := do
  if strIsEmpty (strTrim raw_sql) then
    throw "Input SQL must not be empty"
  let statement ← parse_single_statement raw_sql
  let table_alias := extract_main_table_alias statement
  let qualified_primary_key_expr ←
    build_primary_key_expr primary_key table_alias
  return ⟨statement, qualified_primary_key_expr⟩

/-- Model of the infrastructure `merge_selection` (same merge as the batch
module: new condition left, original parenthesized right). -/
def merge_selection : Option Expr → Expr → Expr
  | some previous_condition, batch_condition =>
      .BinaryOp batch_condition .And (.Nested previous_condition)
  | none, batch_condition => batch_condition

/-- Model of the infrastructure `inject_batch_condition`: only the selection
is merged — existing `ORDER BY` and `LIMIT` clauses are left untouched. -/
def inject_batch_condition (statement : Statement) (batch_condition : Expr) :
    Except String Statement :=
  match statement with
  | .Update table assignments selection limit =>
      .ok (.Update table assignments
        (some (merge_selection selection batch_condition)) limit)
  | .Delete d =>
      .ok (.Delete { d with
        selection := some (merge_selection d.selection batch_condition) })
  | .Query q =>
    match q.body with
    | .Select sel =>
        .ok (.Query ⟨.Select { sel with
          selection := some (merge_selection sel.selection batch_condition) }⟩)
    | _ => .error "Only SELECT statements with direct FROM clause are supported"
  | _ => .error "Only UPDATE, DELETE and SELECT statements are currently supported"

/-- Model of `SqlParserBatchTemplate::render_for_range`: build the BETWEEN
condition, inject it into a clone of the base statement, render to text. -/
def SqlParserBatchTemplate.render_for_range (t : SqlParserBatchTemplate)
    (start_id end_id : Int) : Except String String :=
  let batch_condition_expr : Expr :=
    .Between t.qualified_primary_key_expr false
      (.Value (.Number start_id)) (.Value (.Number end_id))
  (inject_batch_condition t.base_statement batch_condition_expr).map
    renderStatement

/-- Outcome of one `GenerateBatchedSqlUseCase::execute` run: whether the
output file was created, the lines written to it, and the error (if any). -/
structure ExecOutcome where
  fileCreated : Bool
  written : List String
  error : Option String
deriving DecidableEq

/-- The rendering loop of `execute`: for each id range render the batch,
append `;` when the rendered text does not already end with one, and write
the line; the first render error aborts the loop. -/
def writeBatches (t : SqlParserBatchTemplate) :
    List (Int × Int) → List String → ExecOutcome
  | [], acc => ⟨true, acc.reverse, none⟩
  | r :: rest, acc =>
    match t.render_for_range r.1 r.2 with
    | .error e => ⟨true, acc.reverse, some e⟩
    | .ok rendered_sql =>
      let line :=
        if strEndsWithChar (strTrimEnd rendered_sql) ';' then rendered_sql
        else rendered_sql ++ ";"
      writeBatches t rest (line :: acc)

/-- Model of `GenerateBatchedSqlUseCase::execute`: validate the slicer,
compile the template, create the output file, then render and write each
batch. -/
def execute (start_id end_id : Int) (batch_size : Nat)
    (raw_sql primary_key : String) : ExecOutcome :=
  match IdBatchSlicer.new start_id end_id batch_size with
  | .error e => ⟨false, [], some e⟩
  | .ok id_batch_slicer =>
    match SqlParserBatchTemplate.parse raw_sql primary_key with
    | .error e => ⟨false, [], some e⟩
    | .ok sql_template =>
        writeBatches sql_template id_batch_slicer.iter_ranges []

end Infra


/-!  ## Auxiliary definitions used by the properties below -/

/-- The statement kinds the infrastructure `inject_batch_condition` can
mutate (`UPDATE`, `DELETE`, and a `SELECT` query). -/
def Infra.supportedStatement : Statement → Bool
  | .Update _ _ _ _ => true
  | .Delete _ => true
  | .Query q => match q.body with | .Select _ => true | _ => false
  | _ => false

/-- The output line `execute` writes for the id range `r` when rendering
succeeds: the rendered text, terminated with `;` when it does not already
end with one. -/
def Infra.lineFor (t : Infra.SqlParserBatchTemplate) (r : Int × Int) : String :=
  match t.render_for_range r.1 r.2 with
  | .ok rendered_sql =>
      if strEndsWithChar (strTrimEnd rendered_sql) ';' then rendered_sql
      else rendered_sql ++ ";"
  | .error _ => ""

/-- `true` exactly on the expression shapes `PrimaryKey::parse` accepts as a
primary-key projection. -/
def isIdentifierExpr : Expr → Bool
  | .Identifier _ => true
  | .CompoundIdentifier _ => true
  | _ => false

/-- Modelled from the spec (§4.2 wording, for comparison with the code): a
bare identifier is a non-empty word of alphanumerics/underscores that does
not start with a digit. -/
def specBareIdentifier (s : String) : Bool :=
  !s.data.isEmpty && s.data.all (fun c => c.isAlphanum || c = '_') &&
    (match s.data.head? with | some c => !c.isDigit | none => false)

/-- Modelled from the spec (§4.2 wording, for comparison with the code): the
inputs the spec says primary-key resolution accepts are exactly "a single
bare identifier or a dotted identifier path". -/
def specIdentifierPath (s : String) : Bool :=
  (strSplitOnChar s '.').all specBareIdentifier

/-- AST of `UPDATE users u JOIN departments d ON u.dept_id = d.id
SET u.active = 0 WHERE d.enabled = 1 LIMIT 100`. -/
def updateUsersJoinDepartments : Statement :=
  .Update
    ⟨.Table [.Identifier ⟨"users"⟩] (some ⟨⟨"u"⟩⟩),
     [⟨.Table [.Identifier ⟨"departments"⟩] (some ⟨⟨"d"⟩⟩),
       .BinaryOp (.CompoundIdentifier [⟨"u"⟩, ⟨"dept_id"⟩]) .Eq
         (.CompoundIdentifier [⟨"d"⟩, ⟨"id"⟩])⟩]⟩
    [⟨[⟨"u"⟩, ⟨"active"⟩], .Value (.Number 0)⟩]
    (some (.BinaryOp (.CompoundIdentifier [⟨"d"⟩, ⟨"enabled"⟩]) .Eq
      (.Value (.Number 1))))
    (some (.Value (.Number 100)))

/-- The multi-part object name `db.schema.users`. -/
def dbSchemaUsers : ObjectName :=
  [.Identifier ⟨"db"⟩, .Identifier ⟨"schema"⟩, .Identifier ⟨"users"⟩]

/-- AST of `UPDATE db.schema.users SET active = 0` (multi-part target name,
no alias). -/
def updateDbSchemaUsers : Statement :=
  .Update ⟨.Table dbSchemaUsers none, []⟩
    [⟨[⟨"active"⟩], .Value (.Number 0)⟩] none none

/-- AST of `DELETE FROM db.schema.users` (multi-part target name, no
alias). -/
def deleteDbSchemaUsers : Statement :=
  .Delete ⟨[], .WithFromKeyword [⟨.Table dbSchemaUsers none, []⟩], none, [], none⟩

/-- The filter `status = 1`. -/
def statusEqOne : Expr :=
  .BinaryOp (.Identifier ⟨"status"⟩) .Eq (.Value (.Number 1))

/-!  ## Properties of the range slicer -/

theorem sliceRangesGo_succ (fuel : Nat) (start stop : Int) (n : Nat) :
    sliceRangesGo (fuel + 1) start stop n =
      if 0 < n ∧ start ≤ stop then
        (start, min (start + n - 1) stop) :: sliceRangesGo fuel (start + n) stop n
      else [] := rfl

theorem sliceRangesGo_congr (stop : Int) (n : Nat) :
    ∀ (fuel : Nat) (start : Int), (stop + 1 - start).toNat ≤ fuel →
      sliceRangesGo fuel start stop n = sliceRanges start stop n := by
  intro fuel
  induction fuel using Nat.strong_induction_on with
  | _ fuel ih =>
    intro start hfuel
    cases fuel with
    | zero =>
        have h0 : (stop + 1 - start).toNat = 0 := by omega
        rw [sliceRanges, h0]
    | succ fuel' =>
        by_cases hc : 0 < n ∧ start ≤ stop
        · obtain ⟨m, hm⟩ : ∃ m, (stop + 1 - start).toNat = m + 1 :=
            ⟨(stop + 1 - start).toNat - 1, by omega⟩
          rw [sliceRanges, hm, sliceRangesGo_succ, sliceRangesGo_succ,
            if_pos hc, if_pos hc]
          congr 1
          rw [ih fuel' (Nat.lt_succ_self _) (start + n) (by omega),
            ih m (by omega) (start + n) (by omega)]
        · rw [sliceRanges, sliceRangesGo_succ, if_neg hc]
          cases hk : (stop + 1 - start).toNat with
          | zero => rfl
          | succ k => rw [sliceRangesGo_succ, if_neg hc]

theorem sliceRanges_eq_cons {start stop : Int} {n : Nat} (hn : 0 < n)
    (hs : start ≤ stop) :
    sliceRanges start stop n =
      (start, min (start + n - 1) stop) :: sliceRanges (start + n) stop n := by
  rw [sliceRanges]
  obtain ⟨m, hm⟩ : ∃ m, (stop + 1 - start).toNat = m + 1 :=
    ⟨(stop + 1 - start).toNat - 1, by omega⟩
  rw [hm, sliceRangesGo_succ, if_pos ⟨hn, hs⟩,
    sliceRangesGo_congr stop n m (start + n) (by omega)]

theorem sliceRanges_eq_nil {start stop : Int} {n : Nat}
    (h : ¬(0 < n ∧ start ≤ stop)) :
    sliceRanges start stop n = [] := by
  rw [sliceRanges]
  cases hk : (stop + 1 - start).toNat with
  | zero => rfl
  | succ k => rw [sliceRangesGo_succ, if_neg h]

theorem sliceRanges_singleton {start stop : Int} {n : Nat} (hn : 0 < n)
    (hs : start ≤ stop) (hlast : stop < start + n) :
    sliceRanges start stop n = [(start, stop)] := by
  rw [sliceRanges_eq_cons hn hs, sliceRanges_eq_nil (by omega)]
  have : min (start + n - 1) stop = stop := by omega
  rw [this]

theorem sliceRanges_head {start stop : Int} {n : Nat} (hn : 0 < n)
    (hs : start ≤ stop) :
    (sliceRanges start stop n).head? = some (start, min (start + n - 1) stop) := by
  rw [sliceRanges_eq_cons hn hs, List.head?_cons]

theorem sliceRanges_ne_nil {start stop : Int} {n : Nat} (hn : 0 < n)
    (hs : start ≤ stop) : sliceRanges start stop n ≠ [] := by
  rw [sliceRanges_eq_cons hn hs]
  exact List.cons_ne_nil _ _

theorem sliceRanges_bounds {n : Nat} (hn : 0 < n) (stop : Int) :
    ∀ start : Int, ∀ r ∈ sliceRanges start stop n,
      start ≤ r.1 ∧ r.1 ≤ r.2 ∧ r.2 ≤ stop ∧ r.2 - r.1 + 1 ≤ n := by
  suffices key : ∀ k : Nat, ∀ start : Int, (stop + 1 - start).toNat ≤ k →
      ∀ r ∈ sliceRanges start stop n,
        start ≤ r.1 ∧ r.1 ≤ r.2 ∧ r.2 ≤ stop ∧ r.2 - r.1 + 1 ≤ n by
    intro start
    exact key _ start le_rfl
  intro k
  induction k with
  | zero =>
      intro start hk r hr
      rw [sliceRanges_eq_nil (by omega)] at hr
      exact absurd hr (List.not_mem_nil r)
  | succ k ih =>
      intro start hk r hr
      by_cases hs : start ≤ stop
      · rw [sliceRanges_eq_cons hn hs] at hr
        rcases List.mem_cons.mp hr with h | h
        · subst h
          rcases min_cases (start + (n : Int) - 1) stop with ⟨hm, hm2⟩ | ⟨hm, hm2⟩ <;>
            simp only [hm] <;> omega
        · have := ih (start + n) (by omega) r h
          omega
      · rw [sliceRanges_eq_nil (by omega)] at hr
        exact absurd hr (List.not_mem_nil r)

theorem sliceRanges_chain {n : Nat} (hn : 0 < n) (stop : Int) :
    ∀ start : Int,
      List.Chain' (fun a b : Int × Int => b.1 = a.2 + 1) (sliceRanges start stop n) := by
  suffices key : ∀ k : Nat, ∀ start : Int, (stop + 1 - start).toNat ≤ k →
      List.Chain' (fun a b : Int × Int => b.1 = a.2 + 1) (sliceRanges start stop n) by
    intro start
    exact key _ start le_rfl
  intro k
  induction k with
  | zero =>
      intro start hk
      rw [sliceRanges_eq_nil (by omega)]
      exact List.chain'_nil
  | succ k ih =>
      intro start hk
      by_cases hs : start ≤ stop
      · rw [sliceRanges_eq_cons hn hs]
        refine List.chain'_cons'.mpr ⟨?_, ih (start + n) (by omega)⟩
        intro b hb
        by_cases h2 : start + n ≤ stop
        · rw [sliceRanges_head hn h2] at hb
          have hmin : min (start + (n : Int) - 1) stop = start + n - 1 := by omega
          simp only [Option.mem_def, Option.some.injEq] at hb
          subst hb
          simp only [hmin]
          omega
        · rw [sliceRanges_eq_nil (by omega)] at hb
          simp at hb
      · rw [sliceRanges_eq_nil (by omega)]
        exact List.chain'_nil

theorem sliceRanges_pairwise {n : Nat} (hn : 0 < n) (stop : Int) :
    ∀ start : Int,
      List.Pairwise (fun a b : Int × Int => a.2 < b.1) (sliceRanges start stop n) := by
  suffices key : ∀ k : Nat, ∀ start : Int, (stop + 1 - start).toNat ≤ k →
      List.Pairwise (fun a b : Int × Int => a.2 < b.1) (sliceRanges start stop n) by
    intro start
    exact key _ start le_rfl
  intro k
  induction k with
  | zero =>
      intro start hk
      rw [sliceRanges_eq_nil (by omega)]
      exact List.Pairwise.nil
  | succ k ih =>
      intro start hk
      by_cases hs : start ≤ stop
      · rw [sliceRanges_eq_cons hn hs]
        refine List.pairwise_cons.mpr ⟨?_, ih (start + n) (by omega)⟩
        intro b hb
        have hb1 := (sliceRanges_bounds hn stop (start + n) b hb).1
        rcases min_cases (start + (n : Int) - 1) stop with ⟨hm, hm2⟩ | ⟨hm, hm2⟩ <;>
          simp only [hm] <;> omega
      · rw [sliceRanges_eq_nil (by omega)]
        exact List.Pairwise.nil

theorem sliceRanges_widths {n : Nat} (hn : 0 < n) (stop : Int) :
    ∀ start : Int, ∀ r ∈ (sliceRanges start stop n).dropLast,
      r.2 - r.1 + 1 = n := by
  suffices key : ∀ k : Nat, ∀ start : Int, (stop + 1 - start).toNat ≤ k →
      ∀ r ∈ (sliceRanges start stop n).dropLast, r.2 - r.1 + 1 = n by
    intro start
    exact key _ start le_rfl
  intro k
  induction k with
  | zero =>
      intro start hk r hr
      rw [sliceRanges_eq_nil (by omega)] at hr
      exact absurd hr (List.not_mem_nil r)
  | succ k ih =>
      intro start hk r hr
      by_cases hs : start ≤ stop
      · rw [sliceRanges_eq_cons hn hs] at hr
        by_cases h2 : start + n ≤ stop
        · rw [sliceRanges_eq_cons hn h2, List.dropLast_cons₂] at hr
          rw [← sliceRanges_eq_cons hn h2] at hr
          rcases List.mem_cons.mp hr with h | h
          · subst h
            have hmin : min (start + (n : Int) - 1) stop = start + n - 1 := by omega
            simp only [hmin]
            omega
          · exact ih (start + n) (by omega) r h
        · rw [sliceRanges_eq_nil (by omega)] at hr
          simp at hr
      · rw [sliceRanges_eq_nil (by omega)] at hr
        exact absurd hr (List.not_mem_nil r)

theorem sliceRanges_last {n : Nat} (hn : 0 < n) (stop : Int) :
    ∀ start : Int, start ≤ stop →
      (sliceRanges start stop n).getLast?.map Prod.snd = some stop := by
  suffices key : ∀ k : Nat, ∀ start : Int, (stop + 1 - start).toNat ≤ k →
      start ≤ stop →
      (sliceRanges start stop n).getLast?.map Prod.snd = some stop by
    intro start
    exact key _ start le_rfl
  intro k
  induction k with
  | zero =>
      intro start hk hs
      omega
  | succ k ih =>
      intro start hk hs
      by_cases h2 : start + n ≤ stop
      · rw [sliceRanges_eq_cons hn hs, sliceRanges_eq_cons hn h2,
          List.getLast?_cons_cons, ← sliceRanges_eq_cons hn h2]
        exact ih (start + n) (by omega) h2
      · rw [sliceRanges_singleton hn hs (by omega)]
        rfl

theorem sliceRanges_length {n : Nat} (hn : 0 < n) (stop : Int) :
    ∀ start : Int, start ≤ stop →
      (sliceRanges start stop n).length = (stop - start).toNat / n + 1 := by
  suffices key : ∀ k : Nat, ∀ start : Int, (stop + 1 - start).toNat ≤ k →
      start ≤ stop →
      (sliceRanges start stop n).length = (stop - start).toNat / n + 1 by
    intro start
    exact key _ start le_rfl
  intro k
  induction k with
  | zero =>
      intro start hk hs
      omega
  | succ k ih =>
      intro start hk hs
      by_cases h2 : start + n ≤ stop
      · rw [sliceRanges_eq_cons hn hs, List.length_cons,
          ih (start + n) (by omega) h2]
        have hle : n ≤ (stop - start).toNat := by omega
        have hsub : (stop - (start + n)).toNat = (stop - start).toNat - n := by
          omega
        rw [hsub, ← Nat.div_eq_sub_div hn hle]
      · rw [sliceRanges_singleton hn hs (by omega), List.length_singleton]
        have : (stop - start).toNat < n := by omega
        rw [Nat.div_eq_of_lt this]

theorem sliceRanges_cover {n : Nat} (hn : 0 < n) (stop : Int) :
    ∀ start : Int, start ≤ stop → ∀ x : Int,
      (∃ r ∈ sliceRanges start stop n, r.1 ≤ x ∧ x ≤ r.2) ↔
        (start ≤ x ∧ x ≤ stop) := by
  suffices key : ∀ k : Nat, ∀ start : Int, (stop + 1 - start).toNat ≤ k →
      start ≤ stop → ∀ x : Int,
      (∃ r ∈ sliceRanges start stop n, r.1 ≤ x ∧ x ≤ r.2) ↔
        (start ≤ x ∧ x ≤ stop) by
    intro start
    exact key _ start le_rfl
  intro k
  induction k with
  | zero =>
      intro start hk hs
      omega
  | succ k ih =>
      intro start hk hs x
      rw [sliceRanges_eq_cons hn hs]
      by_cases h2 : start + n ≤ stop
      · have hmin : min (start + (n : Int) - 1) stop = start + n - 1 := by omega
        have ihx := ih (start + n) (by omega) h2 x
        constructor
        · rintro ⟨r, hr, hx1, hx2⟩
          rcases List.mem_cons.mp hr with h | h
          · subst h
            simp only [hmin] at hx1 hx2 ⊢
            omega
          · have := ihx.mp ⟨r, h, hx1, hx2⟩
            omega
        · rintro ⟨hx1, hx2⟩
          by_cases hx3 : x ≤ start + n - 1
          · exact ⟨(start, min (start + (n : Int) - 1) stop), List.mem_cons_self _ _,
              by simp only [hmin]; omega⟩
          · obtain ⟨r, hr, hrx⟩ := ihx.mpr (by omega)
            exact ⟨r, List.mem_cons_of_mem _ hr, hrx⟩
      · have hmin : min (start + (n : Int) - 1) stop = stop := by omega
        rw [@sliceRanges_eq_nil (start + n) stop n (by omega), hmin]
        constructor
        · rintro ⟨r, hr, hx1, hx2⟩
          rw [List.mem_singleton] at hr
          subst hr
          exact ⟨hx1, hx2⟩
        · rintro ⟨hx1, hx2⟩
          exact ⟨(start, stop), List.mem_singleton_self _, hx1, hx2⟩

/-!  ## Helper lemmas about the rendering loop -/

theorem Infra.writeBatches_fileCreated (t : Infra.SqlParserBatchTemplate) :
    ∀ (rs : List (Int × Int)) (acc : List String),
      (Infra.writeBatches t rs acc).fileCreated = true := by
  intro rs
  induction rs with
  | nil => intro acc; rfl
  | cons r rest ih =>
      intro acc
      rw [Infra.writeBatches]
      cases h : t.render_for_range r.1 r.2 with
      | error e => rfl
      | ok rendered => exact ih _

theorem Infra.inject_ok {st : Statement}
    (h : Infra.supportedStatement st = true) (c : Expr) :
    ∃ st2, Infra.inject_batch_condition st c = .ok st2 := by
  cases st with
  | Update table assignments selection limit => exact ⟨_, rfl⟩
  | Delete d => exact ⟨_, rfl⟩
  | Query q =>
      cases q with
      | mk body =>
          cases body with
          | Select sel => exact ⟨_, rfl⟩
          | OtherSetExpr => simp [Infra.supportedStatement] at h
  | Insert tbl => simp [Infra.supportedStatement] at h

theorem Infra.render_for_range_ok {t : Infra.SqlParserBatchTemplate}
    (h : Infra.supportedStatement t.base_statement = true) (a b : Int) :
    ∃ s, t.render_for_range a b = .ok s := by
  obtain ⟨st2, h2⟩ := Infra.inject_ok h
    (.Between t.qualified_primary_key_expr false
      (.Value (.Number a)) (.Value (.Number b)))
  exact ⟨renderStatement st2, by
    simp [Infra.SqlParserBatchTemplate.render_for_range, h2, Except.map]⟩

theorem Infra.writeBatches_ok (t : Infra.SqlParserBatchTemplate) :
    ∀ (rs : List (Int × Int)) (acc : List String),
      (∀ r ∈ rs, ∃ s, t.render_for_range r.1 r.2 = .ok s) →
      Infra.writeBatches t rs acc =
        ⟨true, acc.reverse ++ rs.map (Infra.lineFor t), none⟩ := by
  intro rs
  induction rs with
  | nil =>
      intro acc _
      simp [Infra.writeBatches]
  | cons r rest ih =>
      intro acc h
      obtain ⟨s, hsr⟩ := h r (List.mem_cons_self _ _)
      rw [Infra.writeBatches, hsr]
      dsimp only
      rw [ih _ (fun x hx => h x (List.mem_cons_of_mem _ hx))]
      simp [Infra.lineFor, hsr]

theorem Infra.merge_selection_inj (sel : Option Expr) {c c' : Expr}
    (h : Infra.merge_selection sel c = Infra.merge_selection sel c') :
    c = c' := by
  cases sel with
  | none => exact h
  | some e => simpa [Infra.merge_selection] using h

theorem Infra.inject_between_inj {st : Statement}
    (hsupp : Infra.supportedStatement st = true) (pk : Expr)
    {a b a' b' : Int}
    (h : Infra.inject_batch_condition st
        (.Between pk false (.Value (.Number a)) (.Value (.Number b))) =
      Infra.inject_batch_condition st
        (.Between pk false (.Value (.Number a')) (.Value (.Number b')))) :
    a = a' ∧ b = b' := by
  cases st with
  | Update table assignments selection limit =>
      simp only [Infra.inject_batch_condition, Except.ok.injEq,
        Statement.Update.injEq, Option.some.injEq, true_and, and_true] at h
      have := Infra.merge_selection_inj selection h
      simp only [Expr.Between.injEq, Expr.Value.injEq, Value.Number.injEq,
        true_and, and_true] at this
      exact ⟨this.1, this.2⟩
  | Delete d =>
      simp only [Infra.inject_batch_condition, Except.ok.injEq,
        Statement.Delete.injEq, Delete.mk.injEq, Option.some.injEq] at h
      have := Infra.merge_selection_inj d.selection h.2.2.1
      simp only [Expr.Between.injEq, Expr.Value.injEq, Value.Number.injEq,
        true_and, and_true] at this
      exact ⟨this.1, this.2⟩
  | Query q =>
      cases q with
      | mk body =>
          cases body with
          | Select sel =>
              simp only [Infra.inject_batch_condition, Except.ok.injEq,
                Statement.Query.injEq, Query.mk.injEq, SetExpr.Select.injEq,
                Select.mk.injEq, Option.some.injEq, true_and, and_true] at h
              have := Infra.merge_selection_inj sel.selection h
              simp only [Expr.Between.injEq, Expr.Value.injEq,
                Value.Number.injEq, true_and, and_true] at this
              exact ⟨this.1, this.2⟩
          | OtherSetExpr => simp [Infra.supportedStatement] at hsupp
  | Insert tbl => simp [Infra.supportedStatement] at hsupp

/-!  ## The claims -/

/-- C1: for every id pair with `start ≤ end` and every batch size `n > 0`,
the range slicer (`IdRange::split_by` / `IdBatchSlicer::iter_ranges`, both
running `sliceRanges`) emits a contiguous, non-overlapping sequence of
sub-ranges covering the closed interval `[start, end]` exactly; every
sub-range except possibly the last has width `n` (and the last has width
between 1 and `n`); the last sub-range ends at `end`; and `start = end`
yields exactly the one sub-range `(start, start)` of width 1. -/
theorem c1_range_slicer_partitions {start stop : Int} {n : Nat}
    (hs : start ≤ stop) (hn : 0 < n) :
    (Batch.IdRange.mk start stop).split_by ⟨n⟩ = sliceRanges start stop n ∧
    (Infra.IdBatchSlicer.mk start stop n).iter_ranges = sliceRanges start stop n ∧
    (sliceRanges start stop n).head? = some (start, min (start + n - 1) stop) ∧
    List.Chain' (fun a b : Int × Int => b.1 = a.2 + 1) (sliceRanges start stop n) ∧
    List.Pairwise (fun a b : Int × Int => a.2 < b.1) (sliceRanges start stop n) ∧
    (∀ x : Int,
      (∃ r ∈ sliceRanges start stop n, r.1 ≤ x ∧ x ≤ r.2) ↔
        (start ≤ x ∧ x ≤ stop)) ∧
    (∀ r ∈ (sliceRanges start stop n).dropLast, r.2 - r.1 + 1 = n) ∧
    (∀ r ∈ sliceRanges start stop n, 1 ≤ r.2 - r.1 + 1 ∧ r.2 - r.1 + 1 ≤ n) ∧
    (sliceRanges start stop n).getLast?.map Prod.snd = some stop ∧
    (start = stop → sliceRanges start stop n = [(start, start)]) := by
  refine ⟨rfl, rfl, sliceRanges_head hn hs, sliceRanges_chain hn stop start,
    sliceRanges_pairwise hn stop start, sliceRanges_cover hn stop start hs,
    sliceRanges_widths hn stop start, ?_, sliceRanges_last hn stop start hs, ?_⟩
  · intro r hr
    have := sliceRanges_bounds hn stop start r hr
    omega
  · intro h
    subst h
    exact sliceRanges_singleton hn le_rfl (by omega)

/-- Witness for C1 at `start = 7`, `end = 7`, `n = 3` (exercising in
particular the `start = end` single-sub-range case). -/
theorem c1_range_slicer_partitions_witness :
    ((7 : Int) ≤ 7 ∧ 0 < 3) ∧
    ((Batch.IdRange.mk 7 7).split_by ⟨3⟩ = sliceRanges 7 7 3 ∧
    (Infra.IdBatchSlicer.mk 7 7 3).iter_ranges = sliceRanges 7 7 3 ∧
    (sliceRanges 7 7 3).head? = some ((7 : Int), min ((7 : Int) + (3 : Nat) - 1) 7) ∧
    List.Chain' (fun a b : Int × Int => b.1 = a.2 + 1) (sliceRanges 7 7 3) ∧
    List.Pairwise (fun a b : Int × Int => a.2 < b.1) (sliceRanges 7 7 3) ∧
    (∀ x : Int,
      (∃ r ∈ sliceRanges 7 7 3, r.1 ≤ x ∧ x ≤ r.2) ↔
        ((7 : Int) ≤ x ∧ x ≤ 7)) ∧
    (∀ r ∈ (sliceRanges 7 7 3).dropLast, r.2 - r.1 + 1 = 3) ∧
    (∀ r ∈ sliceRanges 7 7 3, 1 ≤ r.2 - r.1 + 1 ∧ r.2 - r.1 + 1 ≤ 3) ∧
    (sliceRanges 7 7 3).getLast?.map Prod.snd = some 7 ∧
    ((7 : Int) = 7 → sliceRanges 7 7 3 = [(7, 7)])) :=
  ⟨⟨by decide, by decide⟩,
    c1_range_slicer_partitions (by decide) (by decide)⟩

/-- C2: when a statement already has a filter, both `merge_selection`
implementations place the new BETWEEN clause first, combine with `AND`, and
parenthesize the original condition (`new AND (old)`); this is what every
rendered batch's filter looks like (the injectors put the merge result into
the statement's selection); the reverse order `(old) AND new` never occurs;
and for the filter `status = 1` the rendered filter text is exactly
`id BETWEEN 1 AND 50 AND (status = 1)` at range `(1, 50)`. -/
theorem c2_merge_puts_between_first :
    (∀ (old cond : Expr),
      Batch.DmlStatement.merge_selection (some old) cond =
        .BinaryOp cond .And (.Nested old)) ∧
    (∀ (old cond : Expr),
      Infra.merge_selection (some old) cond =
        .BinaryOp cond .And (.Nested old)) ∧
    (∀ (old cond : Expr),
      renderExpr (Infra.merge_selection (some old) cond) =
        renderExpr cond ++ " AND (" ++ renderExpr old ++ ")") ∧
    (∀ (old pk : Expr) (a b : Int),
      Infra.merge_selection (some old)
          (.Between pk false (.Value (.Number a)) (.Value (.Number b))) ≠
        .BinaryOp (.Nested old) .And
          (.Between pk false (.Value (.Number a)) (.Value (.Number b)))) ∧
    (∀ (table : TableWithJoins) (assignments : List Assignment)
        (old : Expr) (limit : Option Expr) (cond : Expr),
      Infra.inject_batch_condition (.Update table assignments (some old) limit)
          cond =
        .ok (.Update table assignments
          (some (.BinaryOp cond .And (.Nested old))) limit)) ∧
    (∀ (tables : List ObjectName) (from_ : FromTable) (old : Expr)
        (order_by : List OrderByExpr) (limit : Option Expr) (cond : Expr),
      Infra.inject_batch_condition
          (.Delete ⟨tables, from_, some old, order_by, limit⟩) cond =
        .ok (.Delete ⟨tables, from_,
          some (.BinaryOp cond .And (.Nested old)), order_by, limit⟩)) ∧
    renderExpr (Infra.merge_selection (some statusEqOne)
        (.Between (.Identifier ⟨"id"⟩) false
          (.Value (.Number 1)) (.Value (.Number 50)))) =
      "id BETWEEN 1 AND 50 AND (status = 1)" := by
  refine ⟨fun old cond => rfl, fun old cond => rfl, ?_, ?_, fun _ _ _ _ _ => rfl,
    fun _ _ _ _ _ _ => rfl, by decide⟩
  · intro old cond
    apply String.ext
    simp [Infra.merge_selection, renderExpr, renderBinaryOperator,
      String.data_append, List.append_assoc]
  · intro old pk a b h
    simp only [Infra.merge_selection, Expr.BinaryOp.injEq] at h
    obtain ⟨h1, -, -⟩ := h
    cases h1

/-- Witness for C2: the merge of the concrete filter `status = 1` with
`id BETWEEN 1 AND 50` (extracted by applying the theorem). -/
theorem c2_merge_puts_between_first_witness :
    Infra.merge_selection (some statusEqOne)
        (.Between (.Identifier ⟨"id"⟩) false
          (.Value (.Number 1)) (.Value (.Number 50))) =
      .BinaryOp
        (.Between (.Identifier ⟨"id"⟩) false
          (.Value (.Number 1)) (.Value (.Number 50))) .And
        (.Nested statusEqOne) :=
  c2_merge_puts_between_first.2.1 statusEqOne
    (.Between (.Identifier ⟨"id"⟩) false
      (.Value (.Number 1)) (.Value (.Number 50)))

/-- C3 (evaluation at the failing input): the batch-module injector does
remove the row-limit clause of an `UPDATE` and the ordering and row-limit
clauses of a `DELETE`, but the infrastructure pipeline used by
`GenerateBatchedSqlUseCase` does not: batching
`DELETE FROM users ORDER BY id DESC LIMIT 5` renders batches that still
carry `ORDER BY id DESC LIMIT 5`. -/
theorem c3_limit_clause_evaluation :
    (Infra.SqlParserBatchTemplate.parse
        "DELETE FROM users ORDER BY id DESC LIMIT 5" "id" =
      .ok ⟨delUsersOrderLimit, .Identifier ⟨"id"⟩⟩) ∧
    ((Infra.SqlParserBatchTemplate.mk delUsersOrderLimit
        (.Identifier ⟨"id"⟩)).render_for_range 10 15 =
      .ok "DELETE FROM users WHERE id BETWEEN 10 AND 15 ORDER BY id DESC LIMIT 5") ∧
    (∀ (table : TableWithJoins) (assignments : List Assignment)
        (selection : Option Expr) (limit : Option Expr) (cond : Expr),
      Batch.DmlStatement.inject_batch_condition
          (.Update table assignments selection limit) cond =
        .ok (.Update table assignments
          (some (Batch.DmlStatement.merge_selection selection cond)) none)) ∧
    (∀ (d : Delete) (cond : Expr),
      Batch.DmlStatement.inject_batch_condition (.Delete d) cond =
        .ok (.Delete ⟨d.tables, d.from_,
          some (Batch.DmlStatement.merge_selection d.selection cond),
          [], none⟩)) := by
  refine ⟨by decide, by decide, fun _ _ _ _ _ => rfl, fun d cond => ?_⟩
  cases d
  rfl

/-- C4: the injected key of the BETWEEN predicate is the user's identifier
path unchanged whenever the key was given qualified (`t2.id` stays `t2.id`
whatever the resolved target, so `t1.t2.id` is never produced), and the
alias-prefixed form `u.id` for an unqualified key against the aliased target
of `UPDATE users u JOIN departments d ...`; the infrastructure
`build_primary_key_expr` behaves the same way. -/
theorem c4_primary_key_qualification :
    (∀ (parts : List Ident) (target : Option String),
      Batch.PrimaryKey.to_expr (.Qualified parts) target =
        .CompoundIdentifier parts) ∧
    (∀ (ident : Ident) (t : String),
      Batch.PrimaryKey.to_expr (.Unqualified ident) (some t) =
        .CompoundIdentifier [Ident.new t, ident]) ∧
    (∀ ident : Ident,
      Batch.PrimaryKey.to_expr (.Unqualified ident) none = .Identifier ident) ∧
    renderExpr (Batch.PrimaryKey.to_expr
        (.Qualified [⟨"t2"⟩, ⟨"id"⟩]) (some "t1")) = "t2.id" ∧
    Batch.DmlStatement.resolve_target_table updateUsersJoinDepartments =
      .ok (some "u") ∧
    renderExpr (Batch.PrimaryKey.to_expr (.Unqualified ⟨"id"⟩) (some "u")) =
      "u.id" ∧
    Batch.PrimaryKey.parse "t2.id" = .ok (.Qualified [⟨"t2"⟩, ⟨"id"⟩]) ∧
    (∀ al : Option String,
      Infra.build_primary_key_expr "t2.id" al =
        .ok (.CompoundIdentifier [Ident.new "t2", Ident.new "id"])) ∧
    Infra.build_primary_key_expr "id" (some "u") =
      .ok (.CompoundIdentifier [Ident.new "u", Ident.new "id"]) := by
  refine ⟨fun parts target => ?_, fun ident t => rfl, fun ident => rfl,
    by decide, by decide, by decide, by decide, fun al => rfl, by decide⟩
  cases target <;> rfl

/-- C6: `DELETE FROM users` with no filter, unqualified primary key `id`,
range `(1, 10)` and batch size 10 produces exactly the single output line
`DELETE FROM users WHERE id BETWEEN 1 AND 10;`. -/
theorem c6_delete_single_batch :
    Infra.execute 1 10 10 "DELETE FROM users" "id" =
      ⟨true, ["DELETE FROM users WHERE id BETWEEN 1 AND 10;"], none⟩ := by
  decide

/-- C5: for a valid job (`start ≤ end`, `n > 0`, with a compiled template
whose statement the injector supports), `execute` emits exactly
`ceil((end-start+1)/n)` statements — one line per sub-range, in ascending
range order, with none omitted; and no statement is duplicated (the injected
batch statements are pairwise distinct, their BETWEEN bounds differing). -/
theorem c5_renderer_emits_every_batch {start stop : Int} {n : Nat}
    {raw_sql primary_key : String} {t : Infra.SqlParserBatchTemplate}
    (hs : start ≤ stop) (hn : 0 < n)
    (hparse : Infra.SqlParserBatchTemplate.parse raw_sql primary_key = .ok t)
    (hsupp : Infra.supportedStatement t.base_statement = true) :
    Infra.execute start stop n raw_sql primary_key =
      ⟨true, (sliceRanges start stop n).map (Infra.lineFor t), none⟩ ∧
    ((sliceRanges start stop n).map (Infra.lineFor t)).length =
      ((stop - start).toNat + 1 + (n - 1)) / n ∧
    List.Pairwise (fun a b : Int × Int => a.1 < b.1)
      (sliceRanges start stop n) ∧
    ((sliceRanges start stop n).map
        (fun r => Infra.inject_batch_condition t.base_statement
          (.Between t.qualified_primary_key_expr false
            (.Value (.Number r.1)) (.Value (.Number r.2))))).Nodup := by
  refine ⟨?_, ?_, ?_, ?_⟩
  · rw [Infra.execute]
    rw [show Infra.IdBatchSlicer.new start stop n = .ok ⟨start, stop, n⟩ by
      rw [Infra.IdBatchSlicer.new, if_neg (by omega), if_neg (by omega)]]
    rw [hparse]
    exact Infra.writeBatches_ok t _ []
      (fun r _ => Infra.render_for_range_ok hsupp r.1 r.2)
  · rw [List.length_map, sliceRanges_length hn stop start hs]
    have h1 : (stop - start).toNat + 1 + (n - 1) = (stop - start).toNat + n := by
      omega
    rw [h1, Nat.add_div_right _ hn]
  · refine (sliceRanges_pairwise hn stop start).imp_of_mem ?_
    intro a b ha hb hab
    have := sliceRanges_bounds hn stop start a ha
    omega
  · have hpw : List.Pairwise (fun a b : Int × Int => a.1 < b.1)
        (sliceRanges start stop n) := by
      refine (sliceRanges_pairwise hn stop start).imp_of_mem ?_
      intro a b ha hb hab
      have := sliceRanges_bounds hn stop start a ha
      omega
    refine List.Pairwise.map _ ?_ hpw
    intro a b hab heq
    have := Infra.inject_between_inj hsupp t.qualified_primary_key_expr heq
    omega

/-- Witness for C5: `DELETE FROM users` with primary key `id`, range
`(1, 105)`, batch size 50 (three batches). -/
theorem c5_renderer_emits_every_batch_witness :
    ((1 : Int) ≤ 105 ∧ 0 < 50 ∧
      Infra.SqlParserBatchTemplate.parse "DELETE FROM users" "id" =
        .ok ⟨delUsers, .Identifier ⟨"id"⟩⟩ ∧
      Infra.supportedStatement delUsers = true) ∧
    (Infra.execute 1 105 50 "DELETE FROM users" "id" =
      ⟨true, (sliceRanges 1 105 50).map
        (Infra.lineFor ⟨delUsers, .Identifier ⟨"id"⟩⟩), none⟩ ∧
    ((sliceRanges 1 105 50).map
        (Infra.lineFor ⟨delUsers, .Identifier ⟨"id"⟩⟩)).length =
      (((105 : Int) - 1).toNat + 1 + (50 - 1)) / 50 ∧
    List.Pairwise (fun a b : Int × Int => a.1 < b.1) (sliceRanges 1 105 50) ∧
    ((sliceRanges 1 105 50).map
        (fun r => Infra.inject_batch_condition delUsers
          (.Between (.Identifier ⟨"id"⟩) false
            (.Value (.Number r.1)) (.Value (.Number r.2))))).Nodup) :=
  ⟨⟨by decide, by decide, by decide, by decide⟩,
    @c5_renderer_emits_every_batch 1 105 50 "DELETE FROM users" "id"
      ⟨delUsers, .Identifier ⟨"id"⟩⟩
      (by decide) (by decide) (by decide) (by decide)⟩

/-- C7 counterexample: the input `";"` is not blank, parses without error to
zero statements (so it is neither a syntax error, nor "more than one
statement", nor an unsupported single statement), yet classification fails
with `MultipleStatements` instead of succeeding. -/
theorem c7_zero_statements_counterexample :
    strIsEmpty (strTrim ";") = false ∧
    parseSql ";" = .ok [] ∧
    Batch.DmlStatement.parse ";" = .error .MultipleStatements := by
  refine ⟨by decide, by decide, by decide⟩

/-- C7 (amended): classification fails with `EmptySql` exactly on blank
input, `ParseFailed` on a parse error, `MultipleStatements` whenever the
number of parsed statements differs from one (more than one, or zero as for
input `";"`), and `UnsupportedStatement` when the single statement is not an
`UPDATE` or `DELETE`; a single supported statement succeeds with exactly one
classified statement when its target table resolves (a `DELETE` with no
source table propagates `MissingDeleteTargetTable`). -/
theorem c7_classification_cases (raw_sql : String)
    (parsed : Except String (List Statement)) :
    (strIsEmpty (strTrim raw_sql) = true →
      Batch.DmlStatement.classify raw_sql parsed = .error .EmptySql) ∧
    (strIsEmpty (strTrim raw_sql) = false → ∀ e, parsed = .error e →
      Batch.DmlStatement.classify raw_sql parsed = .error (.ParseFailed e)) ∧
    (strIsEmpty (strTrim raw_sql) = false → ∀ l, parsed = .ok l →
      l.length ≠ 1 →
      Batch.DmlStatement.classify raw_sql parsed = .error .MultipleStatements) ∧
    (strIsEmpty (strTrim raw_sql) = false → ∀ st, parsed = .ok [st] →
      Batch.supportedKind st = false →
      Batch.DmlStatement.classify raw_sql parsed =
        .error .UnsupportedStatement) ∧
    (strIsEmpty (strTrim raw_sql) = false → ∀ st target, parsed = .ok [st] →
      Batch.supportedKind st = true →
      Batch.DmlStatement.resolve_target_table st = .ok target →
      Batch.DmlStatement.classify raw_sql parsed = .ok ⟨st, target⟩) ∧
    (strIsEmpty (strTrim raw_sql) = false → ∀ st e, parsed = .ok [st] →
      Batch.supportedKind st = true →
      Batch.DmlStatement.resolve_target_table st = .error e →
      Batch.DmlStatement.classify raw_sql parsed = .error e) := by
  refine ⟨?_, ?_, ?_, ?_, ?_, ?_⟩
  · intro hblank
    simp [Batch.DmlStatement.classify, hblank]
  · intro hblank e he
    subst he
    simp [Batch.DmlStatement.classify, hblank]
  · intro hblank l hl hlen
    subst hl
    match l, hlen with
    | [], _ => simp [Batch.DmlStatement.classify, hblank]
    | a :: b :: rest, _ => simp [Batch.DmlStatement.classify, hblank]
    | [a], h => exact absurd rfl h
  · intro hblank st hst hkind
    subst hst
    cases st <;> simp_all [Batch.DmlStatement.classify, Batch.supportedKind]
  · intro hblank st target hst hkind hresolve
    subst hst
    cases st <;>
      simp_all [Batch.DmlStatement.classify, Batch.supportedKind]
  · intro hblank st e hst hkind hresolve
    subst hst
    cases st <;>
      simp_all [Batch.DmlStatement.classify, Batch.supportedKind]

/-- Witness for C7 (amended), success clause: `DELETE FROM users` parses to
one supported statement with resolvable target table, and classification
succeeds with exactly that statement. -/
theorem c7_classification_cases_witness :
    Batch.DmlStatement.classify "DELETE FROM users"
        (parseSql "DELETE FROM users") = .ok ⟨delUsers, some "users"⟩ :=
  (c7_classification_cases "DELETE FROM users"
      (parseSql "DELETE FROM users")).2.2.2.2.1
    (by decide) delUsers (some "users") (by decide) (by decide) (by decide)

/-- C8 counterexample: `x; SELECT id` is not a bare or dotted identifier
path, yet primary-key resolution accepts it: the probe query
`SELECT x; SELECT id FROM __pk_probe` parses to two statements,
`statements.pop()` inspects only the last one, whose projection is the
single identifier `id`. -/
theorem c8_smuggled_statement_counterexample :
    specIdentifierPath "x; SELECT id" = false ∧
    parseSql "SELECT x; SELECT id FROM __pk_probe" =
      .ok [selX, probeSelect (.Identifier ⟨"id"⟩)] ∧
    Batch.PrimaryKey.parse "x; SELECT id" = .ok (.Unqualified ⟨"id"⟩) := by
  refine ⟨by decide, by decide, by decide⟩

/-- C8 (amended): primary-key resolution fails with `EmptyPrimaryKey`
exactly on blank input and with `InvalidPrimaryKeyExpression` on parse
failure and on any probe result whose last statement is not a
single-identifier projection (function calls, literals, other expressions);
it accepts a probe whose LAST parsed statement projects a single bare or
dotted identifier — the probe's statement count is not checked, so inputs
smuggling extra statements (e.g. `x; SELECT id`) can be accepted although
they are not identifier paths. -/
theorem c8_primary_key_resolution (value : String)
    (parsed : Except String (List Statement)) :
    (strIsEmpty (strTrim value) = true →
      Batch.PrimaryKey.new value = .error .EmptyPrimaryKey) ∧
    (∀ e, parsed = .error e →
      Batch.PrimaryKey.parseWith parsed =
        .error (.InvalidPrimaryKeyExpression e)) ∧
    (parsed = .ok [] →
      Batch.PrimaryKey.parseWith parsed =
        .error (.InvalidPrimaryKeyExpression "empty parse result")) ∧
    (∀ l sel i, parsed = .ok l →
      l.getLast? = some (.Query ⟨.Select sel⟩) →
      sel.projection = [.UnnamedExpr (.Identifier i)] →
      Batch.PrimaryKey.parseWith parsed = .ok (.Unqualified i)) ∧
    (∀ l sel parts, parsed = .ok l →
      l.getLast? = some (.Query ⟨.Select sel⟩) →
      sel.projection = [.UnnamedExpr (.CompoundIdentifier parts)] →
      Batch.PrimaryKey.parseWith parsed = .ok (.Qualified parts)) ∧
    (∀ l sel e, parsed = .ok l →
      l.getLast? = some (.Query ⟨.Select sel⟩) →
      sel.projection = [.UnnamedExpr e] → isIdentifierExpr e = false →
      Batch.PrimaryKey.parseWith parsed =
        .error (.InvalidPrimaryKeyExpression
          "only identifier path is supported")) ∧
    (∀ l st, parsed = .ok l → l.getLast? = some st →
      (∀ q, st ≠ .Query q) →
      Batch.PrimaryKey.parseWith parsed =
        .error (.InvalidPrimaryKeyExpression "invalid primary key input")) := by
  refine ⟨?_, ?_, ?_, ?_, ?_, ?_, ?_⟩
  · intro hblank
    rw [Batch.PrimaryKey.new]
    simp [hblank]
  · intro e he
    subst he
    rfl
  · intro hl
    subst hl
    rfl
  · intro l sel i hl hlast hproj
    subst hl
    simp [Batch.PrimaryKey.parseWith, hlast, hproj]
  · intro l sel parts hl hlast hproj
    subst hl
    simp [Batch.PrimaryKey.parseWith, hlast, hproj]
  · intro l sel e hl hlast hproj hident
    subst hl
    cases e <;>
      simp_all [Batch.PrimaryKey.parseWith, isIdentifierExpr, hlast, hproj]
  · intro l st hl hlast hnq
    subst hl
    cases st with
    | Query q => exact absurd rfl (hnq q)
    | Update table assignments selection limit =>
        simp [Batch.PrimaryKey.parseWith, hlast]
    | Delete d => simp [Batch.PrimaryKey.parseWith, hlast]
    | Insert tbl => simp [Batch.PrimaryKey.parseWith, hlast]

/-- Witness for C8 (amended): the dotted path `t2.id` is accepted as the
qualified key `[t2, id]`. -/
theorem c8_primary_key_resolution_witness :
    Batch.PrimaryKey.parseWith (parseSql "SELECT t2.id FROM __pk_probe") =
      .ok (.Qualified [⟨"t2"⟩, ⟨"id"⟩]) :=
  (c8_primary_key_resolution "t2.id"
      (parseSql "SELECT t2.id FROM __pk_probe")).2.2.2.2.1
    [probeSelect (.CompoundIdentifier [⟨"t2"⟩, ⟨"id"⟩])]
    ⟨[.UnnamedExpr (.CompoundIdentifier [⟨"t2"⟩, ⟨"id"⟩])],
      [plainTable "__pk_probe"], none⟩
    [⟨"t2"⟩, ⟨"id"⟩] (by decide) (by decide) (by decide)

/-- C9 counterexample: the parseable but unsupported statement
`INSERT INTO logs VALUES (1)` passes job compilation, the output file is
created, and only then does rendering fail with the unsupported-statement
error — so a validation error that is not an I/O error occurs during
rendering, after file creation, with an (empty) output file left behind. -/
theorem c9_unsupported_after_file_creation :
    Infra.execute 1 10 10 "INSERT INTO logs VALUES (1)" "id" =
      ⟨true, [],
        some "Only UPDATE, DELETE and SELECT statements are currently supported"⟩ := by
  decide

/-- C9 (amended): range, SQL-parse, statement-count and primary-key errors
are raised during job compilation, before the output file is created (a
created file implies both compilation stages succeeded, and any compilation
failure yields no file and no written lines); the two-statement input is
rejected with the statement-count error before file creation; but an
unsupported statement kind is only rejected during rendering, after the
output file has been created. -/
theorem c9_compile_errors_precede_file (start_id end_id : Int)
    (batch_size : Nat) (raw_sql primary_key : String) :
    ((Infra.execute start_id end_id batch_size raw_sql primary_key).fileCreated
        = true →
      (∃ slicer, Infra.IdBatchSlicer.new start_id end_id batch_size =
        .ok slicer) ∧
      (∃ t, Infra.SqlParserBatchTemplate.parse raw_sql primary_key = .ok t)) ∧
    (∀ e, Infra.IdBatchSlicer.new start_id end_id batch_size = .error e →
      Infra.execute start_id end_id batch_size raw_sql primary_key =
        ⟨false, [], some e⟩) ∧
    (∀ slicer e,
      Infra.IdBatchSlicer.new start_id end_id batch_size = .ok slicer →
      Infra.SqlParserBatchTemplate.parse raw_sql primary_key = .error e →
      Infra.execute start_id end_id batch_size raw_sql primary_key =
        ⟨false, [], some e⟩) ∧
    Infra.execute 1 100 50 "UPDATE users SET active = 0; DELETE FROM users"
        "id" =
      ⟨false, [],
        some "Input SQL must contain exactly one statement, but got 2"⟩ := by
  refine ⟨?_, ?_, ?_, by decide⟩
  · intro hfile
    rw [Infra.execute] at hfile
    cases hnew : Infra.IdBatchSlicer.new start_id end_id batch_size with
    | error e => rw [hnew] at hfile; cases hfile
    | ok slicer =>
        rw [hnew] at hfile
        cases hparse : Infra.SqlParserBatchTemplate.parse raw_sql primary_key with
        | error e => rw [hparse] at hfile; cases hfile
        | ok t => exact ⟨⟨slicer, rfl⟩, ⟨t, rfl⟩⟩
  · intro e he
    rw [Infra.execute, he]
  · intro slicer e hok he
    rw [Infra.execute, hok, he]

/-- Witness for C9 (amended): on the valid job of C6 the output file is
created, and indeed both compilation stages succeeded. -/
theorem c9_compile_errors_precede_file_witness :
    (∃ slicer, Infra.IdBatchSlicer.new 1 10 10 = .ok slicer) ∧
    (∃ t, Infra.SqlParserBatchTemplate.parse "DELETE FROM users" "id" =
      .ok t) :=
  (c9_compile_errors_precede_file 1 10 10 "DELETE FROM users" "id").1
    (by decide)

/-- C10: for an `UPDATE` or `DELETE` whose target table is a multi-part
object name without an alias (e.g. `db.schema.users`), the qualifier applied
to an unqualified primary key is the last identifier segment (`users`), not
the full dotted name. -/
theorem c10_multipart_name_uses_last_segment :
    (∀ (ps : List ObjectNamePart) (i : Ident),
      Batch.DmlStatement.object_table_name (ps ++ [.Identifier i]) =
        some i.value) ∧
    (∀ (ps : List ObjectNamePart) (i : Ident),
      Batch.DmlStatement.target_name_from_table_factor
        (.Table (ps ++ [.Identifier i]) none) = some i.value) ∧
    Batch.DmlStatement.resolve_target_table updateDbSchemaUsers =
      .ok (some "users") ∧
    Batch.DmlStatement.resolve_target_table deleteDbSchemaUsers =
      .ok (some "users") ∧
    (∀ col : Ident,
      Batch.PrimaryKey.to_expr (.Unqualified col) (some "users") =
        .CompoundIdentifier [Ident.new "users", col]) := by
  have hobj : ∀ (ps : List ObjectNamePart) (i : Ident),
      Batch.DmlStatement.object_table_name (ps ++ [.Identifier i]) =
        some i.value := by
    intro ps i
    rw [Batch.DmlStatement.object_table_name, List.reverse_append]
    rfl
  refine ⟨hobj, ?_, by decide, by decide, fun col => rfl⟩
  intro ps i
  rw [Batch.DmlStatement.target_name_from_table_factor]
  exact hobj ps i
